import Mathlib

/-!
Shallow embedding of the quote pipeline of the roll-gold-bot repository.

The repository contains several near-duplicate revisions of the same bot.
We embed the two revisions the claims cite:
* `src/index.js`, second document, version v3.13 (Yahoo primary, Polygon
  cross-check) — definitions suffixed `V313` or unsuffixed;
* `src/unnamed/part_000`, version v3.15 (Polygon only) — suffixed `V315`.

Modelling conventions:
* JavaScript numbers are embedded as `ℚ`.  Where the JS code can produce a
  non-finite number (Infinity / NaN, e.g. by dividing by zero), the embedded
  value is an `Option ℚ` and `none` stands for the non-finite result.
* A JS function that can throw is embedded as returning `Option _`, with
  `none` for the escaping exception.  The result of an awaited network call
  is a parameter of type `Option _`, with `none` for a failed / caught call.
* Field accesses like `q?.regularMarketPrice` are `Option ℚ` parameters;
  the nullish coalescing operator `??` is `<|>` / `Option.getD`, while the
  truthy operator `||` on numbers also treats `0` as absent (`jsOr`).
-/

namespace RollGold

/-- JS `String.prototype.toUpperCase` restricted to the ASCII inputs the bot
handles. -/
def jsToUpper (s : String) : String :=
  String.mk (s.data.map Char.toUpper)

/-- Source `clean`: trim surrounding whitespace (JS `String.prototype.trim`,
written out on the character list so that it evaluates in the kernel). -/
def clean (s : String) : String :=
  String.mk
    ((((s.data.dropWhile Char.isWhitespace).reverse.dropWhile
        Char.isWhitespace)).reverse)

/-- Source `norm` of index.js v3.13 (lines 322-326): uppercase, apply the
class-share map for BRK tickers, otherwise strip all whitespace. -/
def normV313 (s : String) : String :=
  let x := jsToUpper (clean s)
  if x = "BRK.B" then "BRK-B"
  else if x = "BRK.A" then "BRK-A"
  else String.mk (x.data.filter (fun c => !c.isWhitespace))

/-- Source `norm` of part_000 v3.15 (line 62): uppercase and strip whitespace,
with no class-share map. -/
def normV315 (s : String) : String :=
  String.mk ((jsToUpper (clean s)).data.filter (fun c => !c.isWhitespace))

/-- One character of the regex class used by `isTicker` and the
word-splitting regexes: uppercase letter, digit, dot or hyphen. -/
def isTickerChar (c : Char) : Bool :=
  ('A' ≤ c && c ≤ 'Z') || ('0' ≤ c && c ≤ '9') || c == '.' || c == '-'

/-- The tail of the `isTicker` regex after the leading letter:
`[A-Z0-9.\-]{0,10}(?:-USD)?$`.  A char list is in that language iff it is
at most ten class characters, or such a block followed by the literal
four characters of the currency suffix. -/
def tickerTail (t : List Char) : Bool :=
  (decide (t.length ≤ 10) && t.all isTickerChar) ||
  (decide (4 ≤ t.length) &&
    (t.drop (t.length - 4) == ['-', 'U', 'S', 'D']) &&
    decide (t.length - 4 ≤ 10) &&
    (t.take (t.length - 4)).all isTickerChar)

/-- Source `isTicker` of index.js v3.13 (line 327):
`/^[A-Z][A-Z0-9.\-]{0,10}(?:-USD)?$/.test(clean(s).toUpperCase())`. -/
def isTicker (s : String) : Bool :=
  match (jsToUpper (clean s)).data with
  | [] => false
  | c :: rest => ('A' ≤ c && c ≤ 'Z') && tickerTail rest

/-- Source `getSession` (index.js v3.13 lines 330-338, identical to
`getSessionNY` of part_000 lines 65-73), as a function of the New-York
day-of-week, hour and minute of the wall clock it reads. -/
def getSession (dow hour minute : ℕ) : String :=
  let mins := hour * 60 + minute
  if dow = 0 ∨ dow = 6 then "OFF"
  else if 240 ≤ mins ∧ mins < 570 then "PRE"
  else if 570 ≤ mins ∧ mins < 960 then "RTH"
  else if 960 ≤ mins ∧ mins < 1200 then "POST"
  else "OFF"

/-- The four session names of the specification. -/
inductive SpecSession where
  | PRE
  | REGULAR
  | POST
  | CLOSED
deriving DecidableEq

/-- Session classification as worded in the specification (a refinement
reference for `getSession`): CLOSED on weekends, otherwise PRE on
[04:00,09:30), REGULAR on [09:30,16:00), POST on [16:00,20:00), CLOSED
elsewhere, all windows half-open. -/
def sessionSpec (dow mins : ℕ) : SpecSession :=
  if dow = 0 ∨ dow = 6 then .CLOSED
  else if 240 ≤ mins ∧ mins < 570 then .PRE
  else if 570 ≤ mins ∧ mins < 960 then .REGULAR
  else if 960 ≤ mins ∧ mins < 1200 then .POST
  else .CLOSED

/-- The tag the code prints for each session of the specification
(REGULAR is tagged RTH, CLOSED is tagged OFF). -/
def specSessionName : SpecSession → String
  | .PRE => "PRE"
  | .REGULAR => "RTH"
  | .POST => "POST"
  | .CLOSED => "OFF"

/-- JS division: `none` models a non-finite result (Infinity or NaN) of
dividing by zero. -/
def jsDiv (a b : ℚ) : Option ℚ :=
  if b = 0 then none else some (a / b)

/-- JS truthy-or on optional numbers: `a || b` falls through to `b` when
`a` is absent or zero (0 is falsy in JS). -/
def jsOr (a b : Option ℚ) : Option ℚ :=
  match a with
  | some x => if x = 0 then b else some x
  | none => b

/-- Source `clamp` (index.js v3.13 line 317): `Math.max(a, Math.min(b, x))`. -/
def clamp (x a b : ℚ) : ℚ :=
  max a (min b x)

/-- The fields the v3.13 `yahooQuoteFull` reads off the object returned by
`yahooFinance.quote` (first try branch, index.js lines 348-354). -/
structure YRawQuote where
  regularMarketPrice : Option ℚ
  postMarketPrice : Option ℚ
  preMarketPrice : Option ℚ
  regularMarketChangePercent : Option ℚ
  quoteType : Option String
deriving DecidableEq

/-- The fields the v3.13 `yahooQuoteFull` reads off the price module of
`yahooFinance.quoteSummary` (fallback branch, index.js lines 356-372). -/
structure YRawSummary where
  regularMarketPrice : Option ℚ
  postMarketPrice : Option ℚ
  preMarketPrice : Option ℚ
  regularMarketChangePercent : Option ℚ
  postMarketChangePercent : Option ℚ
  preMarketChangePercent : Option ℚ
  quoteType : Option String
deriving DecidableEq

/-- The partial quote the v3.13 Yahoo adapter returns. -/
structure YQuote where
  price : ℚ
  chg : ℚ
  type : String
  source : String
deriving DecidableEq

/-- The partial quote the v3.13 Polygon adapter returns.  `chg` is `none`
when the JS computation produced a non-finite number. -/
structure PQuote where
  price : ℚ
  chg : Option ℚ
deriving DecidableEq

/-- Fallback branch of the v3.13 `yahooQuoteFull` (index.js lines 356-372):
price is the nullish coalescing of the three price fields.  The source does
not re-check this price for null, so a summary object carrying none of the
three prices would construct a NaN price; no claim depends on that corner
and we fold it into the failure case. -/
def yahooSummaryPath (sres : Option YRawSummary) : Option YQuote :=
  match sres with
  | none => none
  | some s =>
    match s.regularMarketPrice <|> s.postMarketPrice <|> s.preMarketPrice with
    | some pr =>
      some { price := pr,
             chg := (s.regularMarketChangePercent <|> s.postMarketChangePercent
                      <|> s.preMarketChangePercent).getD 0,
             type := s.quoteType.getD "EQUITY",
             source := "Yahoo (fallback)" }
    | none => none

/-- Source `yahooQuoteFull` of index.js v3.13 (lines 344-374).  `qres` is the
outcome of the `yahooFinance.quote` call (`none` if it threw), `sres` that of
the `yahooFinance.quoteSummary` fallback.  Note that the only price check on
the primary branch is `price == null`: a price of exactly 0 passes it. -/
def yahooQuoteFull (qres : Option YRawQuote) (sres : Option YRawSummary) :
    Option YQuote :=
  match qres with
  | some q =>
    match q.regularMarketPrice <|> q.postMarketPrice <|> q.preMarketPrice with
    | some pr =>
      some { price := pr,
             chg := q.regularMarketChangePercent.getD 0,
             type := q.quoteType.getD "EQUITY",
             source := "Yahoo" }
    | none => yahooSummaryPath sres
  | none => yahooSummaryPath sres

/-- Source `polygonQuote` of index.js v3.13 (lines 376-402).  `nbbo` is the
bid/ask pair of the last-NBBO call (`none` when the call failed or the
response had no results), `prev` the close of the previous-day aggregate.
The midpoint is rejected when falsy (`if (!price) return null`), so a zero
midpoint is treated as no price.  The change percent divides by `prev.c`
without a zero check, hence its `Option`. -/
def polygonQuote (nbbo : Option (ℚ × ℚ)) (prev : Option ℚ) : Option PQuote :=
  match nbbo with
  | none => none
  | some (bid, ask) =>
    let price := (bid + ask) / 2
    if price = 0 then none
    else
      some { price := price,
             chg := match prev with
               | none => some 0
               | some c => (jsDiv (price - c) c).map (· * 100) }

/-- The discrepancy percentage of the v3.13 `getQuote` (line 410):
`Math.abs((p.price - y.price) / y.price) * 100`; `none` when the JS value is
non-finite (Yahoo price 0). -/
def discDiffPct (pPrice yPrice : ℚ) : Option ℚ :=
  (jsDiv (pPrice - yPrice) yPrice).map (fun r => |r| * 100)

/-- Whether the v3.13 `getQuote` attaches a discrepancy note (line 411):
`diff > DISC_BPS / 100`.  When the diff is non-finite, JS compares Infinity
(Polygon and Yahoo prices differ, comparison true) or NaN (both zero,
comparison false) against the threshold. -/
def discFlag (bps pPrice yPrice : ℚ) : Bool :=
  match discDiffPct pPrice yPrice with
  | some d => decide (d > bps / 100)
  | none => decide (pPrice ≠ 0)

/-- The quote object the v3.13 `getQuote` returns.  `flag` is true when the
discrepancy note string is attached, `alt` is the display-only Yahoo
alternate price. -/
structure QuoteOut where
  price : ℚ
  chg : Option ℚ
  type : String
  session : String
  source : String
  flag : Bool
  alt : Option ℚ
deriving DecidableEq

/-- Source `getQuote` of index.js v3.13 (lines 404-427).  `y` is the outcome
of `yahooQuoteFull` (`none` if it threw: that exception is not caught inside
`getQuote` and escapes to the caller, modelled by the `none` result), `p` the
outcome of `polygonQuote` for equities and ETFs.  `sess` stands for the
`getSession()` wall-clock read, `bps` for the `DISC_BPS` configuration
(default 50). -/
def getQuoteV313 (bps : ℚ) (sess : String) (y : Option YQuote)
    (p : Option PQuote) : Option QuoteOut :=
  match y with
  | none => none
  | some yq =>
    if yq.type = "EQUITY" ∨ yq.type = "ETF" then
      match p with
      | some pq =>
        some { price := pq.price, chg := pq.chg, type := yq.type,
               session := sess, source := "Polygon",
               flag := discFlag bps pq.price yq.price, alt := some yq.price }
      | none =>
        some { price := yq.price, chg := some yq.chg, type := yq.type,
               session := sess, source := yq.source, flag := false,
               alt := none }
    else
      some { price := yq.price, chg := some yq.chg, type := yq.type,
             session := sess, source := yq.source, flag := false, alt := none }

/-- The previous-day aggregate of the v3.15 `polygonPrevClose`
(part_000 lines 92-101). -/
structure PrevAgg where
  close : ℚ
  volume : ℚ
deriving DecidableEq

/-- The two return shapes of the v3.15 `getQuote`: the ok record and the
explicit failure record `{ ok: false, ticker, session, error }`. -/
inductive QResult where
  | ok (ticker : String) (price chg vol : ℚ) (prevClose : Option ℚ)
      (session : String)
  | fail (ticker : String) (session : String) (error : String)
deriving DecidableEq

/-- Source `getQuote` of part_000 v3.15 (lines 131-168).  The three fetches
run under `.catch(() => null)`, so each parameter is the already-caught
outcome ( `none` = that call failed or returned nothing finite) and the
function itself is total: it never throws.  `sess` stands for the
`getSessionNY()` wall-clock read. -/
def getQuoteV315 (ticker sess : String) (prev : Option PrevAgg)
    (last : Option ℚ) (dayAgg : Option (ℚ × ℚ)) : QResult :=
  let t := normV315 ticker
  let price? : Option ℚ :=
    match dayAgg with
    | some (p, _) => some p
    | none => last
  match price? with
  | none => .fail t sess "No Polygon price"
  | some price =>
    let prevClose : Option ℚ := prev.map (·.close)
    -- `const chg = prevClose ? ((price - prevClose) / prevClose) * 100 : 0;`
    -- a zero close is falsy, so it takes the 0 branch and never divides.
    let chg : ℚ :=
      match prevClose with
      | some pc => if pc = 0 then 0 else (price - pc) / pc * 100
      | none => 0
    let vol : ℚ :=
      match dayAgg with
      | some (_, v) => v
      | none =>
        match prev with
        | some pa => pa.volume
        | none => 0
    -- the returned prevClose field is `prevClose ? Number(prevClose) : null`
    .ok t price chg vol
      (match prevClose with
       | some pc => if pc = 0 then none else some pc
       | none => none)
      sess

/-- The volume fields the v3.13 code reads off a Yahoo raw object for the
relative-volume estimate and the scanner. -/
structure RawVol where
  regularMarketVolume : Option ℚ
  averageDailyVolume3Month : Option ℚ
  averageVolume : Option ℚ
deriving DecidableEq

/-- Source `minutesSinceOpenNY` (index.js v3.13 lines 339-341):
`Math.max(0, hour * 60 + minute - 570)`, here with truncated Nat
subtraction playing the role of the max with 0. -/
def minutesSinceOpenNY (hour minute : ℕ) : ℕ :=
  hour * 60 + minute - 570

/-- The average-volume read of `estimateRVOLFromQuote` (index.js line 432):
`Number(raw?.averageDailyVolume3Month ?? raw?.averageVolume ?? 0)`. -/
def rvolAvg (raw : RawVol) : ℚ :=
  (raw.averageDailyVolume3Month <|> raw.averageVolume).getD 0

/-- Source `estimateRVOLFromQuote` (index.js v3.13 lines 430-443).  `mins`
stands for the `minutesSinceOpenNY()` wall-clock read.  `none` is the null
("unknown") result. -/
def estimateRVOLFromQuote (raw : RawVol) (session : String) (mins : ℕ) :
    Option ℚ :=
  let vol : ℚ := raw.regularMarketVolume.getD 0
  let avg : ℚ := rvolAvg raw
  if avg ≤ 0 then none
  else if session = "RTH" then
    let frac := clamp ((mins : ℚ) / 390) (1 / 20) 1
    let expectedSoFar := avg * frac
    if expectedSoFar ≤ 0 then none
    else some (vol / expectedSoFar)
  else some (vol / avg)

/-- The per-symbol data the v3.13 `scanLowcapsTopN` reads off a successful
`yahooQuoteFull` result: price, change percent and the raw volume fields. -/
structure ScanIn where
  price : ℚ
  chg : ℚ
  raw : RawVol
deriving DecidableEq

/-- A scan candidate as pushed by the v3.13 `scanLowcapsTopN` loop
(index.js line 707), enriched with `idx`, its position in the input
universe, which is what the stability of the JS sort preserves.  The
display-only `floatDisp` and `news` enrichments are not modelled. -/
structure Cand where
  idx : ℕ
  price : ℚ
  chg : ℚ
  vol : ℚ
  rvol : ℚ
deriving DecidableEq

/-- The score the scan assigns (index.js line 711):
`2 * (x.rvol || 0) + (x.chg || 0)`.  `rvol` is positive for every
candidate (its volume is at least 200000), and `chg || 0` only remaps 0 to
0, so the truthy-or falls away over `ℚ`. -/
def Cand.score (c : Cand) : ℚ :=
  2 * c.rvol + c.chg

/-- The average-volume read of the scan (index.js line 686), with truthy
`||` fallthrough: `Number(q.raw?.averageDailyVolume3Month ||
q.raw?.averageVolume || 0)`. -/
def scanAvg (raw : RawVol) : ℚ :=
  (jsOr raw.averageDailyVolume3Month raw.averageVolume).getD 0

/-- The filter-and-build step of one iteration of the v3.13
`scanLowcapsTopN` loop (index.js lines 684-707): price band 0.5-7, volume
at least 200000 with a known average, relative volume at least 1.5. -/
def passLowcap (i : ℕ) (q : ScanIn) : Option Cand :=
  let vol : ℚ := q.raw.regularMarketVolume.getD 0
  let avg : ℚ := scanAvg q.raw
  if ¬(1 / 2 ≤ q.price ∧ q.price ≤ 7) then none
  else if vol < 200000 ∨ avg ≤ 0 then none
  else
    let rvol := vol / max 1 avg
    if rvol < 3 / 2 then none
    else some ⟨i, q.price, q.chg, vol, rvol⟩

/-- The candidate-collection loop of the v3.13 `scanLowcapsTopN`
(index.js lines 680-709): symbols whose quote threw are skipped, the rest
pass through the filters; `i` is the position in the universe list. -/
def collectLowcap : ℕ → List (Option ScanIn) → List Cand
  | _, [] => []
  | i, none :: rest => collectLowcap (i + 1) rest
  | i, some q :: rest =>
    match passLowcap i q with
    | some c => c :: collectLowcap (i + 1) rest
    | none => collectLowcap (i + 1) rest

/-- One insertion step of a stable descending sort by score: the inserted
element goes before every element it ties with or beats, after the ones
that strictly beat it. -/
def insertByScore (x : Cand) : List Cand → List Cand
  | [] => [x]
  | y :: ys =>
    if y.score ≤ x.score then x :: y :: ys else y :: insertByScore x ys

/-- Stable descending sort by score.  This is the unique stable sort for
the comparator `(a, b) => b.score - a.score` of index.js line 712
(`Array.prototype.sort` is stable), so it computes the same list. -/
def sortByScoreDesc : List Cand → List Cand
  | [] => []
  | x :: xs => insertByScore x (sortByScoreDesc xs)

/-- Source `scanLowcapsTopN` of index.js v3.13 (lines 676-714): collect the
candidates that pass all filters, sort them by score descending (stable)
and truncate to `n`. -/
def scanLowcapsTopN (univ : List (Option ScanIn)) (n : ℕ) : List Cand :=
  (sortByScoreDesc (collectLowcap 0 univ)).take n

/-- The order the claim describes for the scan output: an earlier output
element either strictly beats a later one on score, or ties with it and
came earlier in the input universe. -/
def candBefore (a b : Cand) : Prop :=
  b.score < a.score ∨ (b.score = a.score ∧ a.idx < b.idx)

/-- First-occurrence deduplication, the JS `[...new Set(list)]` idiom:
`seen` accumulates the elements already emitted. -/
def dedupFirstAux : List String → List String → List String
  | _, [] => []
  | seen, x :: xs =>
    if seen.contains x then dedupFirstAux seen xs
    else x :: dedupFirstAux (x :: seen) xs

/-- `[...new Set(l)]`: keep the first occurrence of each element, in
order. -/
def dedupFirst (l : List String) : List String :=
  dedupFirstAux [] l

/-- The two `replace` calls of the v3.13 alert and schedule_add handlers
(index.js lines 962-963 and 1082-1083): remove typographic quote marks and
dollar signs. -/
def stripAlertChars (s : String) : String :=
  String.mk (s.data.filter
    (fun c => !((['“', '”', '‘', '’', '"', '$'] : List Char).contains c)))

/-- Maximal runs of ticker-class characters of a char list: the JS
`split(/[^A-Z0-9.\-]+/).filter(Boolean)` on an uppercased string.  `acc`
holds the current run, reversed. -/
def wordsAux : List Char → List Char → List String
  | acc, [] => if acc.isEmpty then [] else [String.mk acc.reverse]
  | acc, c :: rest =>
    if isTickerChar c then wordsAux (c :: acc) rest
    else if acc.isEmpty then wordsAux [] rest
    else String.mk acc.reverse :: wordsAux [] rest

/-- The word extraction of the v3.13 alert handler (index.js lines
960-966): strip quote marks and dollar signs, uppercase, split on
non-ticker characters and drop empty fragments. -/
def alertWords (text : String) : List String :=
  wordsAux [] (jsToUpper (stripAlertChars text)).data

/-- The list of symbols the v3.13 alert handler fetches quotes for
(index.js lines 960-976): the format-checked, deduplicated words truncated
to four, with NVDA as the default when the option is missing, empty or
yields no valid ticker. -/
def alertFetchList (textOpt : Option String) : List String :=
  let text :=
    match textOpt with
    | some s => if s = "" then "NVDA" else s
    | none => "NVDA"
  let list := (dedupFirst ((alertWords text).filter isTicker)).take 4
  if list.isEmpty then ["NVDA"] else list

/-- The list of symbols the v3.13 deep handler fetches quotes for
(index.js lines 985-986): the normalized option (default SPY) is passed to
`getQuote` with no format check. -/
def deepFetchList (tickerOpt : Option String) : List String :=
  [normV313 (match tickerOpt with
    | some s => if s = "" then "SPY" else s
    | none => "SPY")]

/-- The ticker list the v3.13 schedule_add handler stores (index.js lines
1081-1089): strip, uppercase, split, normalize, format-check, deduplicate
and truncate to four. -/
def scheduleAddTickers (tickStr : String) : List String :=
  (dedupFirst (((alertWords tickStr).map normV313).filter isTicker)).take 4

/-- The list of symbols one scheduled `postExpressAlert` run fetches
(index.js line 880): `(tickers || []).map(norm).slice(0, 4)` — normalized
and truncated but not deduplicated. -/
def postExpressAlertList (tickers : List String) : List String :=
  (tickers.map normV313).take 4

/-- The list of symbols one scheduled v3.15 `postAlert` run fetches
(part_000 line 306): `(tickers || []).map(norm).filter(Boolean).slice(0, 4)`. -/
def postAlertListV315 (tickers : List String) : List String :=
  ((tickers.map normV315).filter (fun t => t != "")).take 4

/-! ## Helper lemmas -/

theorem mem_of_mem_dedupFirstAux {a : String} :
    ∀ (seen l : List String), a ∈ dedupFirstAux seen l → a ∈ l := by
  intro seen l
  induction l generalizing seen with
  | nil => intro h; simp [dedupFirstAux] at h
  | cons x xs ih =>
    intro h
    rw [dedupFirstAux] at h
    split at h
    · exact List.mem_cons_of_mem _ (ih _ h)
    · rcases List.mem_cons.mp h with rfl | h
      · exact List.mem_cons_self _ _
      · exact List.mem_cons_of_mem _ (ih _ h)

theorem not_mem_dedupFirstAux {a : String} :
    ∀ (seen l : List String), a ∈ seen → a ∉ dedupFirstAux seen l := by
  intro seen l
  induction l generalizing seen with
  | nil => intro _ h; simp [dedupFirstAux] at h
  | cons x xs ih =>
    intro ha h
    rw [dedupFirstAux] at h
    split at h
    next hc => exact ih _ ha h
    next hc =>
      rcases List.mem_cons.mp h with rfl | h
      · simp [List.contains] at hc
        exact hc ha
      · exact ih (x :: seen) (List.mem_cons_of_mem _ ha) h

theorem nodup_dedupFirstAux :
    ∀ (seen l : List String), (dedupFirstAux seen l).Nodup := by
  intro seen l
  induction l generalizing seen with
  | nil => simp [dedupFirstAux]
  | cons x xs ih =>
    rw [dedupFirstAux]
    split
    · exact ih _
    · refine List.Pairwise.cons (fun b hb hxb => ?_) (ih _)
      exact not_mem_dedupFirstAux _ _ (hxb ▸ List.mem_cons_self x seen) hb

theorem mem_of_mem_dedupFirst {a : String} {l : List String}
    (h : a ∈ dedupFirst l) : a ∈ l :=
  mem_of_mem_dedupFirstAux [] l h

theorem nodup_dedupFirst (l : List String) : (dedupFirst l).Nodup :=
  nodup_dedupFirstAux [] l

theorem length_insertByScore (x : Cand) :
    ∀ l : List Cand, (insertByScore x l).length = l.length + 1 := by
  intro l
  induction l with
  | nil => rfl
  | cons y ys ih =>
    rw [insertByScore]
    split
    · rfl
    · simp [ih]

theorem length_sortByScoreDesc :
    ∀ l : List Cand, (sortByScoreDesc l).length = l.length := by
  intro l
  induction l with
  | nil => rfl
  | cons x xs ih => simp [sortByScoreDesc, length_insertByScore, ih]

theorem mem_of_mem_insertByScore {a x : Cand} :
    ∀ {l : List Cand}, a ∈ insertByScore x l → a = x ∨ a ∈ l := by
  intro l
  induction l with
  | nil => intro h; rcases List.mem_cons.mp h with rfl | h
           · exact Or.inl rfl
           · simp at h
  | cons y ys ih =>
    intro h
    rw [insertByScore] at h
    split at h
    · rcases List.mem_cons.mp h with rfl | h
      · exact Or.inl rfl
      · exact Or.inr h
    · rcases List.mem_cons.mp h with rfl | h
      · exact Or.inr (List.mem_cons_self _ _)
      · rcases ih h with rfl | h
        · exact Or.inl rfl
        · exact Or.inr (List.mem_cons_of_mem _ h)

theorem mem_of_mem_sortByScoreDesc {a : Cand} :
    ∀ {l : List Cand}, a ∈ sortByScoreDesc l → a ∈ l := by
  intro l
  induction l with
  | nil => intro h; simp [sortByScoreDesc] at h
  | cons x xs ih =>
    intro h
    rw [sortByScoreDesc] at h
    rcases mem_of_mem_insertByScore h with rfl | h
    · exact List.mem_cons_self _ _
    · exact List.mem_cons_of_mem _ (ih h)

theorem pairwise_insertByScore {x : Cand} :
    ∀ {l : List Cand}, l.Pairwise candBefore →
      (∀ y ∈ l, x.idx < y.idx) → (insertByScore x l).Pairwise candBefore := by
  intro l
  induction l with
  | nil => intro _ _; exact List.pairwise_singleton _ _
  | cons y ys ih =>
    intro hp hidx
    obtain ⟨hy, hys⟩ := List.pairwise_cons.mp hp
    rw [insertByScore]
    split
    next hle =>
      refine List.pairwise_cons.mpr ⟨fun z hz => ?_, hp⟩
      rcases List.mem_cons.mp hz with rfl | hz
      · rcases lt_or_eq_of_le hle with hlt | heq
        · exact Or.inl hlt
        · exact Or.inr ⟨heq, hidx z (List.mem_cons_self _ _)⟩
      · rcases hy z hz with hlt | ⟨heq, _⟩
        · exact Or.inl (lt_of_lt_of_le hlt hle)
        · rcases lt_or_eq_of_le (heq ▸ hle) with hlt | heq2
          · exact Or.inl hlt
          · exact Or.inr ⟨heq2, hidx z (List.mem_cons_of_mem _ hz)⟩
    next hgt =>
      refine List.pairwise_cons.mpr ⟨fun z hz => ?_, ?_⟩
      · rcases mem_of_mem_insertByScore hz with rfl | hz
        · exact Or.inl (lt_of_not_le hgt)
        · exact hy z hz
      · exact ih hys (fun z hz => hidx z (List.mem_cons_of_mem _ hz))

theorem pairwise_sortByScoreDesc :
    ∀ {l : List Cand}, l.Pairwise (fun a b => a.idx < b.idx) →
      (sortByScoreDesc l).Pairwise candBefore := by
  intro l
  induction l with
  | nil => intro _; exact List.Pairwise.nil
  | cons x xs ih =>
    intro hp
    obtain ⟨hx, hxs⟩ := List.pairwise_cons.mp hp
    rw [sortByScoreDesc]
    exact pairwise_insertByScore (ih hxs)
      (fun y hy => hx y (mem_of_mem_sortByScoreDesc hy))

theorem passLowcap_idx {i : ℕ} {q : ScanIn} {c : Cand}
    (h : passLowcap i q = some c) : c.idx = i := by
  simp only [passLowcap] at h
  split_ifs at h
  cases h
  rfl

theorem le_idx_of_mem_collectLowcap {c : Cand} :
    ∀ (l : List (Option ScanIn)) (i : ℕ), c ∈ collectLowcap i l → i ≤ c.idx := by
  intro l
  induction l with
  | nil => intro i h; simp [collectLowcap] at h
  | cons o rest ih =>
    intro i h
    cases o with
    | none =>
      rw [collectLowcap] at h
      exact le_trans (Nat.le_succ i) (ih (i + 1) h)
    | some q =>
      rw [collectLowcap] at h
      cases hq : passLowcap i q with
      | none =>
        rw [hq] at h
        exact le_trans (Nat.le_succ i) (ih (i + 1) h)
      | some cand =>
        rw [hq] at h
        rcases List.mem_cons.mp h with rfl | h
        · exact le_of_eq (passLowcap_idx hq).symm
        · exact le_trans (Nat.le_succ i) (ih (i + 1) h)

theorem pairwise_idx_collectLowcap :
    ∀ (l : List (Option ScanIn)) (i : ℕ),
      (collectLowcap i l).Pairwise (fun a b => a.idx < b.idx) := by
  intro l
  induction l with
  | nil => intro i; simp [collectLowcap]
  | cons o rest ih =>
    intro i
    cases o with
    | none => rw [collectLowcap]; exact ih (i + 1)
    | some q =>
      rw [collectLowcap]
      cases hq : passLowcap i q with
      | none => exact ih (i + 1)
      | some cand =>
        refine List.Pairwise.cons (fun b hb => ?_) (ih (i + 1))
        have h1 := le_idx_of_mem_collectLowcap rest (i + 1) hb
        have h2 := passLowcap_idx hq
        omega

/-! ## Claim theorems -/

/-- C2: session classification is a total function of the timestamp that
agrees with the specification windows everywhere: weekends are CLOSED, and
on weekdays the minute-of-day falls into exactly the half-open window the
specification names, so in particular 09:30 is REGULAR (tagged RTH) and
16:00 is POST; being a total function into one tag, no minute of the week
is unclassified or doubly classified. -/
theorem getSession_matches_spec :
    (∀ (d : Fin 7) (h : Fin 24) (m : Fin 60),
      getSession d h m = specSessionName (sessionSpec d (h.val * 60 + m.val))) ∧
    getSession 3 9 30 = specSessionName SpecSession.REGULAR ∧
    getSession 3 16 0 = specSessionName SpecSession.POST := by
  exact ⟨by decide, rfl, rfl⟩

/-- C9 counterexample: the `norm` of the Polygon-only revision (part_000
line 62, one of the two normalizations the claim cites) has no class-share
map, so it does not send the input string brk.b to BRK-B. -/
theorem normV315_brkb_cex :
    normV315 "brk.b" ≠ "BRK-B" ∧ normV315 "brk.b" = "BRK.B" := by
  exact ⟨by decide, by decide⟩

/-- C9 amended: the Yahoo-based revisions map the class-share dot to a
hyphen after uppercasing, so their norm sends brk.b to BRK-B; the
Polygon-only revision only uppercases and strips whitespace, leaving
BRK.B. -/
theorem norm_brkb :
    normV313 "brk.b" = "BRK-B" ∧ normV315 "brk.b" = "BRK.B" := by
  exact ⟨by decide, by decide⟩

/-- C1 counterexample: in the v3.13 `getQuote`, a total failure of the
Yahoo adapter (both of its endpoints threw, so `yahooQuoteFull` throws) is
not converted into a failure-state Quote: the exception (modelled by the
`none` result) propagates out of `getQuote` to its caller, even though
every provider leg failed. -/
theorem getQuoteV313_throws_cex :
    getQuoteV313 50 "OFF" (yahooQuoteFull none none) none = none := rfl

/-- C1 amended: the Polygon-only v3.15 `getQuote` behaves as claimed: when
all three provider calls fail it returns an explicit failure-state result
carrying no price and the descriptive reason string, and it never throws
(it is a total function of the caught call outcomes).  The Yahoo-primary
v3.13 `getQuote`, however, propagates a total Yahoo failure as an
exception to its caller instead of returning a failure-state Quote; only
its Polygon leg is absorbed. -/
theorem getQuote_failure_states :
    (∀ ticker sess,
      getQuoteV315 ticker sess none none none =
        QResult.fail (normV315 ticker) sess "No Polygon price") ∧
    (∀ bps sess p, getQuoteV313 bps sess none p = none) := by
  exact ⟨fun _ _ => rfl, fun _ _ _ => rfl⟩

/-- C3: when the Yahoo primary typing succeeds for an equity or ETF and the
Polygon adapter also returns a quote, the reconciled v3.13 quote carries
the discrepancy note exactly when the relative difference of the Polygon
(authoritative) price against the Yahoo (secondary, alternate) price,
`|polygon - yahoo| / yahoo`, exceeds the configured tolerance of `bps`
basis points, and the note never changes the selected price, which is
always the Polygon one. -/
theorem discrepancy_note_iff :
    ∀ (bps : ℚ) (sess : String) (yq : YQuote) (pq : PQuote),
      (yq.type = "EQUITY" ∨ yq.type = "ETF") → 0 < yq.price →
      ∃ q, getQuoteV313 bps sess (some yq) (some pq) = some q ∧
        q.price = pq.price ∧
        (q.flag = true ↔ |pq.price - yq.price| / yq.price * 100 > bps / 100) := by
  intro bps sess yq pq hty hy
  refine ⟨{ price := pq.price, chg := pq.chg, type := yq.type, session := sess,
            source := "Polygon", flag := discFlag bps pq.price yq.price,
            alt := some yq.price }, ?_, rfl, ?_⟩
  · simp [getQuoteV313, hty]
  · show discFlag bps pq.price yq.price = true ↔ _
    rw [discFlag, discDiffPct, jsDiv, if_neg hy.ne']
    simp only [Option.map_some']
    rw [decide_eq_true_iff, abs_div, abs_of_pos hy]

/-- C3 witness, the end-to-end scenario of the claim: Polygon (primary)
price 10.00, Yahoo (secondary) price 10.20, tolerance 50 bps: the relative
difference is about 1.96 percent, so the note is attached, and 10.00 stays
the authoritative price. -/
theorem discrepancy_note_iff_witness :
    ((⟨51 / 5, 0, "EQUITY", "Yahoo"⟩ : YQuote).type = "EQUITY" ∨
      (⟨51 / 5, 0, "EQUITY", "Yahoo"⟩ : YQuote).type = "ETF") ∧
    (0 : ℚ) < 51 / 5 ∧
    ∃ q, getQuoteV313 50 "RTH" (some ⟨51 / 5, 0, "EQUITY", "Yahoo"⟩)
          (some ⟨10, some 0⟩) = some q ∧
      q.price = 10 ∧ q.flag = true := by
  refine ⟨Or.inl rfl, by norm_num, ?_⟩
  obtain ⟨q, hq, hp, hiff⟩ :=
    discrepancy_note_iff 50 "RTH" ⟨51 / 5, 0, "EQUITY", "Yahoo"⟩ ⟨10, some 0⟩
      (Or.inl rfl) (by norm_num)
  exact ⟨q, hq, hp, hiff.mpr (by norm_num [abs_of_neg])⟩

/-- C4: the relative-volume estimator is the reference function of the
claim: an unknown or non-positive average volume yields the unknown result
(`none`, which is neither zero nor one); during the REGULAR session it
returns `vol / (avg * clamp(minutesSinceOpen / 390, 0.05, 1))`; outside
the REGULAR session it returns `vol / avg`; and on the scenario of average
volume 1000000, 45 minutes into the session, current volume 200000 it
returns 26/15, which is within 0.01 of 1.73. -/
theorem rvol_reference :
    (∀ raw session mins, rvolAvg raw ≤ 0 →
      estimateRVOLFromQuote raw session mins = none) ∧
    (∀ raw mins, 0 < rvolAvg raw →
      estimateRVOLFromQuote raw "RTH" mins =
        some ((raw.regularMarketVolume.getD 0) /
          (rvolAvg raw * clamp ((mins : ℚ) / 390) (1 / 20) 1))) ∧
    (∀ raw session mins, 0 < rvolAvg raw → session ≠ "RTH" →
      estimateRVOLFromQuote raw session mins =
        some ((raw.regularMarketVolume.getD 0) / rvolAvg raw)) ∧
    (estimateRVOLFromQuote ⟨some 200000, some 1000000, none⟩ "RTH" 45 =
        some (26 / 15) ∧
      |(26 / 15 : ℚ) - 173 / 100| < 1 / 100) := by
  have hclamp : ∀ x : ℚ, (0 : ℚ) < clamp x (1 / 20) 1 := by
    intro x
    calc (0 : ℚ) < 1 / 20 := by norm_num
      _ ≤ clamp x (1 / 20) 1 := le_max_left _ _
  have h2 : ∀ raw mins, 0 < rvolAvg raw →
      estimateRVOLFromQuote raw "RTH" mins =
        some ((raw.regularMarketVolume.getD 0) /
          (rvolAvg raw * clamp ((mins : ℚ) / 390) (1 / 20) 1)) := by
    intro raw mins h
    simp only [estimateRVOLFromQuote]
    rw [if_neg (not_le.mpr h)]
    simp only [if_true, eq_self_iff_true, if_neg (not_le.mpr (mul_pos h (hclamp _)))]
  refine ⟨?_, h2, ?_, ?_, ?_⟩
  · intro raw session mins h
    simp only [estimateRVOLFromQuote]
    rw [if_pos h]
  · intro raw session mins h hs
    simp only [estimateRVOLFromQuote]
    rw [if_neg (not_le.mpr h), if_neg hs]
  · rw [h2 ⟨some 200000, some 1000000, none⟩ 45 (by decide)]
    congr 1
    rw [clamp]
    rw [show min (1 : ℚ) ((45 : ℕ) / 390 : ℚ) = (45 : ℚ) / 390 from
          min_eq_right (by norm_num),
        show max (1 / 20 : ℚ) ((45 : ℚ) / 390) = (45 : ℚ) / 390 from
          max_eq_right (by norm_num)]
    show (200000 : ℚ) / ((some (1000000 : ℚ) <|> none).getD 0 * ((45 : ℚ) / 390)) =
      26 / 15
    norm_num
  · rw [show (26 / 15 : ℚ) - 173 / 100 = 1 / 300 by norm_num,
      abs_of_pos (by norm_num : (0 : ℚ) < 1 / 300)]
    norm_num

/-- C4 witness: the scenario inputs satisfy the positive-average
hypothesis and the REGULAR-session conjunct evaluates on them to the
claimed reference formula. -/
theorem rvol_reference_witness :
    (0 : ℚ) < rvolAvg ⟨some 200000, some 1000000, none⟩ ∧
    estimateRVOLFromQuote ⟨some 200000, some 1000000, none⟩ "RTH" 45 =
      some (((⟨some 200000, some 1000000, none⟩ : RawVol).regularMarketVolume.getD 0) /
        (rvolAvg ⟨some 200000, some 1000000, none⟩ *
          clamp ((45 : ℚ) / 390) (1 / 20) 1)) :=
  ⟨by decide, rvol_reference.2.1 ⟨some 200000, some 1000000, none⟩ 45 (by decide)⟩

/-- C5: for every universe of per-symbol outcomes and every result count,
the scan output has length `min n (number of candidates passing all
filters)`, and consecutive output elements are ordered by score descending
with ties broken by the position of the symbol in the input universe. -/
theorem scan_sorted_topN :
    ∀ (univ : List (Option ScanIn)) (n : ℕ),
      (scanLowcapsTopN univ n).length = min n (collectLowcap 0 univ).length ∧
      (scanLowcapsTopN univ n).Pairwise candBefore := by
  intro univ n
  constructor
  · rw [scanLowcapsTopN, List.length_take, length_sortByScoreDesc]
  · exact List.Pairwise.sublist (List.take_sublist _ _)
      (pairwise_sortByScoreDesc (pairwise_idx_collectLowcap univ 0))

/-- C6 counterexample: the Yahoo adapter only rejects a missing
(null/undefined) price, so a price of exactly 0 from Yahoo is returned as
a valid quote, and for an instrument type that skips the Polygon
cross-check the reconciled v3.13 quote carries that 0 as its real price. -/
theorem zero_price_cex :
    yahooQuoteFull (some ⟨some 0, none, none, some 1, some "CRYPTO"⟩) none =
      some ⟨0, 1, "CRYPTO", "Yahoo"⟩ ∧
    getQuoteV313 50 "OFF" (some ⟨0, 1, "CRYPTO", "Yahoo"⟩) none =
      some ⟨0, some 1, "CRYPTO", "OFF", "Yahoo", false, none⟩ := by
  exact ⟨rfl, by decide⟩

/-- C6 amended: the Polygon adapter does treat a price of exactly 0 as no
price (its falsy check rejects a zero NBBO midpoint, so a Polygon partial
quote never carries price 0), but the Yahoo adapter checks its price only
against null, so a literal 0 price from Yahoo is passed through as a valid
quote. -/
theorem zero_price_policy :
    (∀ nbbo prev q, polygonQuote nbbo prev = some q → q.price ≠ 0) ∧
    (∀ qr : YRawQuote, qr.regularMarketPrice = some 0 →
      yahooQuoteFull (some qr) none =
        some { price := 0, chg := qr.regularMarketChangePercent.getD 0,
               type := qr.quoteType.getD "EQUITY", source := "Yahoo" }) := by
  constructor
  · intro nbbo prev q h
    cases nbbo with
    | none => simp [polygonQuote] at h
    | some ba =>
      obtain ⟨bid, ask⟩ := ba
      simp only [polygonQuote] at h
      split_ifs at h with hz
      cases h
      exact hz
  · intro qr h
    simp [yahooQuoteFull, h]

/-- C6 witness: a concrete Polygon NBBO (bid 2, ask 4) yields the midpoint
3, and the first conjunct applied there gives that this price is nonzero;
a concrete Yahoo raw object with regular price 0 feeds the second
conjunct. -/
theorem zero_price_policy_witness :
    polygonQuote (some (2, 4)) none = some ⟨3, some 0⟩ ∧
    (⟨3, some 0⟩ : PQuote).price ≠ 0 ∧
    yahooQuoteFull (some ⟨some 0, none, none, none, none⟩) none =
      some ⟨0, 0, "EQUITY", "Yahoo"⟩ :=
  ⟨by norm_num [polygonQuote],
   zero_price_policy.1 (some (2, 4)) none ⟨3, some 0⟩ (by norm_num [polygonQuote]),
   zero_price_policy.2 ⟨some 0, none, none, none, none⟩ rfl⟩

/-- C7 counterexample: the v3.13 `polygonQuote` guards only a missing
previous-day aggregate; when the aggregate is present with a close of
exactly 0, the change percent divides by zero and is the non-finite JS
number (modelled `none`), not the claimed default 0. -/
theorem prevclose_zero_div_cex :
    polygonQuote (some (1, 3)) (some 0) = some ⟨2, none⟩ := by
  norm_num [polygonQuote, jsDiv]

/-- C7 amended: the Polygon-only v3.15 `getQuote` behaves as claimed: a
zero or missing previous close yields change percent 0 (its truthiness
check also catches the zero close) and a null prevClose field; the v3.13
`polygonQuote` defaults the change to 0 only when the previous-day
aggregate is missing, and divides by zero when the aggregate is present
with close 0, producing a non-finite change percent. -/
theorem prevclose_zero_handling :
    (∀ ticker sess last day (v : ℚ) price chg vol pc,
      (getQuoteV315 ticker sess (some ⟨0, v⟩) last day =
          QResult.ok (normV315 ticker) price chg vol pc sess ∨
        getQuoteV315 ticker sess none last day =
          QResult.ok (normV315 ticker) price chg vol pc sess) →
      chg = 0 ∧ pc = none) ∧
    (∀ bid ask q, polygonQuote (some (bid, ask)) none = some q →
      q.chg = some 0) ∧
    (∀ bid ask q, polygonQuote (some (bid, ask)) (some 0) = some q →
      q.chg = none) := by
  refine ⟨?_, ?_, ?_⟩
  · intro ticker sess last day v price chg vol pc h
    rcases h with h | h
    · cases day with
      | some dv =>
        obtain ⟨p, v2⟩ := dv
        rw [show getQuoteV315 ticker sess (some ⟨0, v⟩) last (some (p, v2)) =
              QResult.ok (normV315 ticker) p 0 v2 none sess from rfl] at h
        injection h with h1 h2 h3 h4 h5 h6
        exact ⟨h3.symm, h5.symm⟩
      | none =>
        cases last with
        | some l =>
          rw [show getQuoteV315 ticker sess (some ⟨0, v⟩) (some l) none =
                QResult.ok (normV315 ticker) l 0 v none sess from rfl] at h
          injection h with h1 h2 h3 h4 h5 h6
          exact ⟨h3.symm, h5.symm⟩
        | none =>
          rw [show getQuoteV315 ticker sess (some ⟨0, v⟩) none none =
                QResult.fail (normV315 ticker) sess "No Polygon price" from
                  rfl] at h
          cases h
    · cases day with
      | some dv =>
        obtain ⟨p, v2⟩ := dv
        rw [show getQuoteV315 ticker sess none last (some (p, v2)) =
              QResult.ok (normV315 ticker) p 0 v2 none sess from rfl] at h
        injection h with h1 h2 h3 h4 h5 h6
        exact ⟨h3.symm, h5.symm⟩
      | none =>
        cases last with
        | some l =>
          rw [show getQuoteV315 ticker sess none (some l) none =
                QResult.ok (normV315 ticker) l 0 0 none sess from rfl] at h
          injection h with h1 h2 h3 h4 h5 h6
          exact ⟨h3.symm, h5.symm⟩
        | none =>
          rw [show getQuoteV315 ticker sess none none none =
                QResult.fail (normV315 ticker) sess "No Polygon price" from
                  rfl] at h
          cases h
  · intro bid ask q h
    simp only [polygonQuote] at h
    split_ifs at h
    cases h
    rfl
  · intro bid ask q h
    simp only [polygonQuote] at h
    split_ifs at h with hz
    cases h
    simp [jsDiv]

/-- C7 witness: with a previous-day close of 0, a last-trade price of 10
and no day aggregate, the v3.15 quote succeeds and the first conjunct
applied there gives change percent 0 and a null prevClose. -/
theorem prevclose_zero_handling_witness :
    getQuoteV315 "SPY" "OFF" (some ⟨0, 5⟩) (some 10) none =
      QResult.ok (normV315 "SPY") 10 0 5 none "OFF" ∧
    (0 : ℚ) = 0 ∧ (none : Option ℚ) = none :=
  ⟨rfl,
   prevclose_zero_handling.1 "SPY" "OFF" (some 10) none 5 10 0 5 none
     (Or.inl rfl)⟩

/-- C8 counterexample: the v3.13 deep handler passes the normalized option
straight to `getQuote` (which fetches from Yahoo, then possibly Polygon)
with no format check, so the input 1ABC, which the ticker format check
rejects, still triggers a network fetch on its behalf. -/
theorem deep_skips_validation_cex :
    deepFetchList (some "1ABC") = ["1ABC"] ∧ isTicker "1ABC" = false := by
  exact ⟨by decide, by decide⟩

/-- C8 amended: on the v3.13 alert and schedule_add paths every symbol
that reaches a quote fetch (or is stored in a schedule) has passed the
ticker format check first; the deep and scalp handlers pass the
normalized input to the quote pipeline without any format check, so
rejected symbols can still reach the network there.  (The flow handler
only echoes the normalized ticker in a placeholder reply and makes no
provider call, so the claimed property holds vacuously on that path.) -/
theorem validated_paths_fetch_valid_tickers :
    (∀ textOpt s, s ∈ alertFetchList textOpt → isTicker s = true) ∧
    (∀ tickStr s, s ∈ scheduleAddTickers tickStr → isTicker s = true) := by
  constructor
  · intro textOpt s hs
    simp only [alertFetchList] at hs
    split at hs
    · rcases List.mem_cons.mp hs with rfl | hs
      · decide
      · simp at hs
    · exact List.of_mem_filter
        (mem_of_mem_dedupFirst (List.mem_of_mem_take hs))
  · intro tickStr s hs
    exact List.of_mem_filter
      (mem_of_mem_dedupFirst (List.mem_of_mem_take hs))

/-- C8 witness: the default alert invocation fetches exactly NVDA, and the
first conjunct applied to that membership confirms it passes the format
check. -/
theorem validated_paths_witness :
    "NVDA" ∈ alertFetchList none ∧ isTicker "NVDA" = true :=
  ⟨by decide, validated_paths_fetch_valid_tickers.1 none "NVDA" (by decide)⟩

/-- C10 counterexample: the scheduled `postExpressAlert` path does not
deduplicate its ticker list (deduplication happens only at schedule_add
time), so a stored schedule with a repeated ticker fetches the duplicate
twice in one invocation. -/
theorem express_no_dedup_cex :
    postExpressAlertList ["SPY", "SPY"] = ["SPY", "SPY"] ∧
    ¬ (["SPY", "SPY"] : List String).Nodup := by
  exact ⟨by decide, by decide⟩

/-- C10 amended: every alert posting path truncates its ticker list to at
most four before fetching, so no single invocation ever fetches more than
four symbols; the on-demand alert path additionally deduplicates its list,
but the scheduled posting paths (v3.13 `postExpressAlert` and v3.15
`postAlert`) only normalize and truncate, without deduplicating. -/
theorem alert_paths_bounded :
    (∀ textOpt, (alertFetchList textOpt).Nodup ∧
      (alertFetchList textOpt).length ≤ 4) ∧
    (∀ tks, (postExpressAlertList tks).length ≤ 4) ∧
    (∀ tks, (postAlertListV315 tks).length ≤ 4) := by
  refine ⟨?_, ?_, ?_⟩
  · intro textOpt
    constructor
    · simp only [alertFetchList]
      split
      · decide
      · exact List.Nodup.sublist (List.take_sublist _ _) (nodup_dedupFirst _)
    · simp only [alertFetchList]
      split
      · decide
      · exact List.length_take_le _ _
  · intro tks
    exact List.length_take_le _ _
  · intro tks
    exact List.length_take_le _ _

end RollGold
